import Mathlib

/-!
Shallow embedding of `src/utility/calendar_project/load_calendar.py`
(event loading, normalization, extraction and grouping logic).

Modelling conventions:
* A Python `datetime` is a record of wall-clock fields plus an optional
  zone; `tz = none` models a naive datetime.  Seconds and microseconds are
  always zero in every datetime this program constructs (`strptime` with
  `%H:%M`, `.replace(tzinfo=...)`), so they are omitted from the record.
* A `tzinfo` object is modelled as a fixed UTC offset in minutes
  (DST transitions are not modelled; no claim below depends on the offset
  value).
* Python exceptions that escape a function are modelled with `Except`:
  the error string names the Python exception.
* `datetime.now(...)` (the clock) is passed in explicitly as an argument.
-/

instance {ε α : Type} [DecidableEq ε] [DecidableEq α] : DecidableEq (Except ε α)
  | .ok a, .ok b =>
    if h : a = b then .isTrue (by rw [h])
    else .isFalse (by intro hc; cases hc; exact h rfl)
  | .ok _, .error _ => .isFalse (by intro hc; cases hc)
  | .error _, .ok _ => .isFalse (by intro hc; cases hc)
  | .error a, .error b =>
    if h : a = b then .isTrue (by rw [h])
    else .isFalse (by intro hc; cases hc; exact h rfl)

namespace LoadCalendar

/-- A `tzinfo` object, as a fixed UTC offset in minutes. -/
abbrev Zone := Int

/-- The constant `TIMEZONE = ZoneInfo("Europe/Berlin")` (standard offset
UTC+60min). -/
def TIMEZONE : Zone := 60

/-- A Python `datetime`: wall-clock fields plus optional zone info. -/
structure DT where
  year : Nat
  month : Nat
  day : Nat
  hour : Nat
  minute : Nat
  tz : Option Zone
deriving DecidableEq

/-- Python `datetime.min`: naive `0001-01-01 00:00`. -/
def datetime_min : DT := ⟨1, 1, 1, 0, 0, none⟩

/-- Python `date` comparison `a.date() < b.date()`: lexicographic on
(year, month, day). -/
def dateLtB (a b : DT) : Bool :=
  decide (a.year < b.year ∨ (a.year = b.year ∧
    (a.month < b.month ∨ (a.month = b.month ∧ a.day < b.day))))

/-- Python `date` equality `a.date() == b.date()`. -/
def dateEqB (a b : DT) : Bool :=
  decide (a.year = b.year ∧ a.month = b.month ∧ a.day = b.day)

/-- Python `a.date() >= b.date()`; dates are totally ordered, so `≥ = ¬<`. -/
def dateGeB (a b : DT) : Bool := !(dateLtB a b)

/-- Python `time` comparison `t1 < t2`: lexicographic on (hour, minute). -/
def timeLtB (a b : Nat × Nat) : Bool :=
  decide (a.1 < b.1 ∨ (a.1 = b.1 ∧ a.2 < b.2))

/-- Wall-clock lexicographic strict order on datetimes (used to compare
two datetimes carrying the same zone). -/
def wallLtB (a b : DT) : Bool :=
  decide (a.year < b.year ∨ (a.year = b.year ∧
    (a.month < b.month ∨ (a.month = b.month ∧
    (a.day < b.day ∨ (a.day = b.day ∧
    (a.hour < b.hour ∨ (a.hour = b.hour ∧ a.minute < b.minute))))))))

/-- An event dict as built by this program:
`{"title": ..., "begin": ..., "end": ...}`; `none` models Python `None`. -/
structure Event where
  title : String
  begin : Option DT
  «end» : Option DT
deriving DecidableEq

/-! Section: Calendar arithmetic (for absolute-instant comparison and
`astimezone` conversion). -/

/-- Leap-year rule of the proleptic Gregorian calendar. -/
def isLeapYear (y : Nat) : Bool :=
  (y % 4 == 0 && y % 100 != 0) || y % 400 == 0

/-- Number of days in a month (as validated by `datetime`). -/
def daysInMonth (y m : Nat) : Nat :=
  if m = 2 then (if isLeapYear y then 29 else 28)
  else if m = 4 ∨ m = 6 ∨ m = 9 ∨ m = 11 then 30
  else 31

/-- Days since 1970-01-01 of a civil date (standard civil-calendar
day-number computation; all divisions act on non-negative values for
the dates this program builds). -/
def daysFromCivil (y m d : Int) : Int :=
  let y2 := if m ≤ 2 then y - 1 else y
  let era := (if 0 ≤ y2 then y2 else y2 - 399) / 400
  let yoe := y2 - era * 400
  let mp := (m + 9) % 12
  let doy := (153 * mp + 2) / 5 + d - 1
  let doe := yoe * 365 + yoe / 4 - yoe / 100 + doy
  era * 146097 + doe - 719468

/-- Inverse of `daysFromCivil`. -/
def civilFromDays (zdays : Int) : Int × Int × Int :=
  let z := zdays + 719468
  let era := (if 0 ≤ z then z else z - 146096) / 146097
  let doe := z - era * 146097
  let yoe := (doe - doe / 1460 + doe / 36524 - doe / 146096) / 365
  let y := yoe + era * 400
  let doy := doe - (365 * yoe + yoe / 4 - yoe / 100)
  let mp := (5 * doy + 2) / 153
  let d := doy - (153 * mp + 2) / 5 + 1
  let m := if mp < 10 then mp + 3 else mp - 9
  (if m ≤ 2 then y + 1 else y, m, d)

/-- Absolute instant of a datetime in minutes since the epoch
(UTC offset subtracted when zone info is present). -/
def absMinutes (t : DT) : Int :=
  daysFromCivil t.year t.month t.day * 1440
    + t.hour * 60 + t.minute - t.tz.getD 0

/-- Python `dt.astimezone(z)`: same absolute instant, wall clock
re-expressed in zone `z`. -/
def astimezone (t : DT) (z : Zone) : DT :=
  let wall := absMinutes t + z
  let days := Int.fdiv wall 1440
  let rem := Int.fmod wall 1440
  let c := civilFromDays days
  ⟨c.1.toNat, c.2.1.toNat, c.2.2.toNat,
    (Int.fdiv rem 60).toNat, (Int.fmod rem 60).toNat, some z⟩

/-- Lines 82–100 of the source, applied to one datetime: a naive value
gets the local zone attached via `replace(tzinfo=local_tz)` (wall clock
untouched); an aware value is converted with `astimezone(local_tz)`. -/
def normalize_dt (t : DT) (z : Zone) : DT :=
  match t.tz with
  | none => { t with tz := some z }
  | some _ => astimezone t z

/-! Section: Text-pattern extraction (`import_events_from_text`).

The scan models `re.findall` with the pattern
`(\d{1,2}:\d{2})-(\d{1,2}:\d{2})\s*(\d{1,2}\.\d{1,2})`:
non-overlapping leftmost matches over the text.  The `\d{1,2}` groups are
greedy with backtracking, but each is followed by a character that is not
a digit (`:`, `.`, or end of pattern), so matching is deterministic. -/

/-- The character class `\d` (ASCII digits, the only ones these inputs
contain). -/
def isDig (c : Char) : Bool := c.isDigit

/-- The character class `\s`. -/
def isSpaceChar (c : Char) : Bool :=
  c == ' ' || c == '\t' || c == '\n' || c == '\r' || c == '\x0b' || c == '\x0c'

/-- Match `\d{1,2}:\d{2}` at the head; returns the captured text and the
rest.  Greedy: a two-digit hour is taken when followed by `:`; the
one-digit alternative can only apply when the second character is `:`. -/
def matchTime : List Char → Option (String × List Char)
  | a :: b :: rest =>
    if isDig a && isDig b then
      match rest with
      | ':' :: m1 :: m2 :: rest2 =>
        if isDig m1 && isDig m2 then
          some (String.mk [a, b, ':', m1, m2], rest2)
        else none
      | _ => none
    else if isDig a && b == ':' then
      match rest with
      | m1 :: m2 :: rest2 =>
        if isDig m1 && isDig m2 then
          some (String.mk [a, ':', m1, m2], rest2)
        else none
      | _ => none
    else none
  | _ => none

/-- Match the trailing greedy `\d{1,2}` of the date group (month): two
digits when available, else one. -/
def matchMonth : List Char → Option (String × List Char)
  | a :: b :: rest =>
    if isDig a && isDig b then some (String.mk [a, b], rest)
    else if isDig a then some (String.mk [a], b :: rest)
    else none
  | [a] => if isDig a then some (String.mk [a], []) else none
  | [] => none

/-- Match `\d{1,2}\.\d{1,2}` at the head (the date capture group). -/
def matchDate : List Char → Option (String × List Char)
  | a :: b :: rest =>
    if isDig a && isDig b then
      match rest with
      | '.' :: rest2 =>
        match matchMonth rest2 with
        | some (ms, rest3) => some (String.mk [a, b, '.'] ++ ms, rest3)
        | none => none
      | _ => none
    else if isDig a && b == '.' then
      match matchMonth rest with
      | some (ms, rest3) => some (String.mk [a, '.'] ++ ms, rest3)
      | none => none
    else none
  | _ => none

/-- Consume `\s*` greedily (it is followed by `\d`, which is disjoint
from `\s`, so no backtracking arises). -/
def skipSpaces : List Char → List Char
  | c :: rest => if isSpaceChar c then skipSpaces rest else c :: rest
  | [] => []

/-- Attempt the whole pattern at the head of the text; returns the three
capture groups (start time, end time, day.month) and the rest. -/
def matchPattern (cs : List Char) : Option ((String × String × String) × List Char) :=
  match matchTime cs with
  | none => none
  | some (startCap, r1) =>
    match r1 with
    | '-' :: r2 =>
      match matchTime r2 with
      | none => none
      | some (endCap, r3) =>
        match matchDate (skipSpaces r3) with
        | none => none
        | some (dateCap, r5) => some ((startCap, endCap, dateCap), r5)
    | _ => none

/-- Scan for non-overlapping leftmost matches (`re.findall`).  A match
consumes at least one character, so `fuel = length` never runs out. -/
def findAllAux : Nat → List Char → List (String × String × String)
  | 0, _ => []
  | _, [] => []
  | fuel + 1, c :: rest =>
    match matchPattern (c :: rest) with
    | some (caps, rem) => caps :: findAllAux fuel rem
    | none => findAllAux fuel rest

/-- All matches of the pattern in the text, in scan order. -/
def findAll (cs : List Char) : List (String × String × String) :=
  findAllAux cs.length cs

/-- Digit value of an ASCII digit character. -/
def digitVal (c : Char) : Nat := c.toNat - '0'.toNat

/-- Model of `datetime.strptime(s, "%H:%M").time()` on a capture of shape
`H:MM`/`HH:MM`: parses the fields and validates hour ≤ 23, minute ≤ 59
(a `ValueError` is modelled as `none`). -/
def parseTimeCap : String → Option (Nat × Nat)
  | s =>
    match s.data with
    | [a, ':', m1, m2] =>
      let h := digitVal a
      let mi := 10 * digitVal m1 + digitVal m2
      if h ≤ 23 && mi ≤ 59 then some (h, mi) else none
    | [a, b, ':', m1, m2] =>
      let h := 10 * digitVal a + digitVal b
      let mi := 10 * digitVal m1 + digitVal m2
      if h ≤ 23 && mi ≤ 59 then some (h, mi) else none
    | _ => none

/-- Model of `datetime.strptime` with format `"%d.%m.%Y"` applied to the
date capture (of shape `D.M`/`DD.M`/`D.MM`/`DD.MM`) suffixed with the
year: parses day and month and validates the ranges `datetime` enforces
(month 1–12, day 1–days-in-month). -/
def parseDateCap (s : String) (year : Nat) : Option (Nat × Nat) :=
  let parsed : Option (Nat × Nat) :=
    match s.data with
    | [d1, '.', m1] => some (digitVal d1, digitVal m1)
    | [d1, '.', m1, m2] => some (digitVal d1, 10 * digitVal m1 + digitVal m2)
    | [d1, d2, '.', m1] => some (10 * digitVal d1 + digitVal d2, digitVal m1)
    | [d1, d2, '.', m1, m2] =>
      some (10 * digitVal d1 + digitVal d2, 10 * digitVal m1 + digitVal m2)
    | _ => none
  match parsed with
  | none => none
  | some (d, mo) =>
    if 1 ≤ mo && mo ≤ 12 && 1 ≤ d && d ≤ daysInMonth year mo then
      some (d, mo)
    else none

/-- The constant `datetime.strptime("16:30", "%H:%M").time()`. -/
def cutoff : Nat × Nat := (16, 30)

/-- Loop body of lines 166–183: build one event from one match, `none`
when `strptime` raises and the match is skipped.  Both clock times are
parsed against the same `day.month.year` date, `tzinfo=TIMEZONE` is
attached by `replace` (no shift), and the title is `"X1"` when the start
time-of-day is strictly before the cutoff, else `"X2"`. -/
def processOne (year : Nat) (t : String × String × String) : Option Event :=
  match parseDateCap t.2.2 year with
  | none => none
  | some (d, mo) =>
    match parseTimeCap t.1 with
    | none => none
    | some (h1, mi1) =>
      match parseTimeCap t.2.1 with
      | none => none
      | some (h2, mi2) =>
        let startDt : DT := ⟨year, mo, d, h1, mi1, some TIMEZONE⟩
        let endDt : DT := ⟨year, mo, d, h2, mi2, some TIMEZONE⟩
        let title := if timeLtB (h1, mi1) cutoff then "X1" else "X2"
        some ⟨title, some startDt, some endDt⟩

/-- The successfully constructed events, in match order (failed matches
are skipped and the loop continues). -/
def processMatches (year : Nat) (ms : List (String × String × String)) : List Event :=
  ms.filterMap (processOne year)

/-- Lines 139–188, restricted to their pure core: the text stands for the chosen file's contents and `year` for
`datetime.now().year`.  When the pattern has no occurrence the function
shows a message box and returns `None` (modelled as `none`); otherwise it
returns the list of events built from the matches. -/
def import_events_from_text (text : String) (year : Nat) : Option (List Event) :=
  match findAll text.data with
  | [] => none
  | ms => some (processMatches year ms)

/-! Section: Structured loader (`load_ics_file`, lines 53–110).

The `ics` library's parsing (`Calendar(text)`, `ev.begin.datetime`, …) is
outside this repository; a raw entry records its outcome for one VEVENT:
`name` is `ev.name` (`none` for Python `None`), `beginDT`/`endDT` are the
datetime obtained for begin/end, `none` when the access raised (for `end`,
the `except` sets it to `None`; for `begin`, when the fallback
`getattr(ev, "begin", None)` also yields `None`).  The filesystem is a map
from paths to the parsed entry list, `none` when the path does not exist. -/

/-- Outcome of the `ics`-library parse of one raw calendar entry. -/
structure RawEntry where
  name : Option String
  beginDT : Option DT
  endDT : Option DT
deriving DecidableEq

/-- Error raised by `load_ics_file`. -/
inductive LoadError where
  | notFound (path : String)
  | typeError (msg : String)
deriving DecidableEq

/-- Loop body of lines 69–106: build the event dict for one raw entry.
`ev.name or "Untitled"` maps both `None` and `""` to `"Untitled"`;
begin/end are normalized to the local zone when they are datetimes and
kept as `None` otherwise. -/
def convert_entry (z : Zone) (r : RawEntry) : Event :=
  { title := match r.name with
      | none => "Untitled"
      | some s => if s = "" then "Untitled" else s
    begin := r.beginDT.map (fun t => normalize_dt t z)
    «end» := r.endDT.map (fun t => normalize_dt t z) }

/-- Sort key of line 109: `e["begin"] or datetime.min` (a datetime is
always truthy; `None` is falsy). -/
def sortKey (e : Event) : DT := e.begin.getD datetime_min

/-- Python comparison of two sort keys.  Two naive datetimes compare by
wall clock, two aware ones by absolute instant; comparing a naive with an
aware datetime raises `TypeError` (the `true` in that branch is never
consulted: `sort_events` only sorts when all keys are comparable). -/
def dtLeB (a b : DT) : Bool :=
  match a.tz, b.tz with
  | none, none => wallLtB a b || a == b
  | some _, some _ => absMinutes a ≤ absMinutes b
  | _, _ => true

/-- All sort keys mutually comparable: all naive or all aware.  A list
mixing the two kinds always raises, because Python's sort compares every
newly processed element with some already processed one. -/
def allKeysComparable (evs : List Event) : Bool :=
  evs.all (fun e => (sortKey e).tz.isSome) ||
  evs.all (fun e => (sortKey e).tz.isNone)

/-- Line 109, `events.sort(key=lambda e: e["begin"] or datetime.min)`:
a stable sort on the keys, raising `TypeError` when a naive key meets an
aware one. -/
def sort_events (evs : List Event) : Except LoadError (List Event) :=
  if allKeysComparable evs then
    .ok (evs.mergeSort (fun a b => dtLeB (sortKey a) (sortKey b)))
  else
    .error (.typeError "cannot compare offset-naive and offset-aware datetimes")

/-- Lines 53–110: raise `FileNotFoundError` when the path does not
exist, else convert every entry and sort by begin. -/
def load_ics_file (fs : String → Option (List RawEntry)) (path : String) :
    Except LoadError (List Event) :=
  match fs path with
  | none => .error (.notFound path)
  | some entries => sort_events (entries.map (convert_entry TIMEZONE))

/-! Section: Filtering and grouping (lines 113–136). -/

/-- Lines 113–117: the list comprehension
`[e for e in events if e["begin"].date() >= now.date()]`, where `now` is
the clock reading `datetime.now(TIMEZONE)` passed explicitly.  When
`e["begin"]` is `None`, the attribute access `.date()` raises
`AttributeError`, aborting the whole comprehension. -/
def filter_future_events (events : List Event) (now : DT) :
    Except String (List Event) :=
  match events with
  | [] => .ok []
  | e :: rest =>
    match e.begin with
    | none => .error "AttributeError: NoneType object has no attribute date"
    | some b =>
      match filter_future_events rest now with
      | .error m => .error m
      | .ok tail => if dateGeB b now then .ok (e :: tail) else .ok tail

/-- Two-digit zero padding, as in `date.isoformat()`. -/
def pad2 (n : Nat) : String := if n < 10 then "0" ++ toString n else toString n

/-- Four-digit zero padding for the year. -/
def pad4 (n : Nat) : String :=
  if n < 10 then "000" ++ toString n
  else if n < 100 then "00" ++ toString n
  else if n < 1000 then "0" ++ toString n
  else toString n

/-- ISO date key of a datetime's wall-clock date. -/
def isoDate (t : DT) : String :=
  pad4 t.year ++ "-" ++ pad2 t.month ++ "-" ++ pad2 t.day

/-- Model of `grouped.setdefault(key, []).append(e)`: append to the
key's list when present, else add the key at the end (dict insertion
order). -/
def addToGroup : List (String × List Event) → String → Event →
    List (String × List Event)
  | [], k, e => [(k, [e])]
  | (k', l) :: rest, k, e =>
    if k' = k then (k', l ++ [e]) :: rest
    else (k', l) :: addToGroup rest k e

/-- The grouping loop of lines 128–135: skip entries whose begin is not a
datetime, key the rest by the ISO date of their begin. -/
def buildGroups (events : List Event) : List (String × List Event) :=
  events.foldl
    (fun m e =>
      match e.begin with
      | none => m
      | some b => addToGroup m (isoDate b) e)
    []

/-- Lines 120–136: filter to today-or-future, then group by local ISO
date. -/
def group_events_by_date (events : List Event) (now : DT) :
    Except String (List (String × List Event)) :=
  match filter_future_events events now with
  | .error m => .error m
  | .ok fut => .ok (buildGroups fut)

/-- An event appears somewhere in a grouping. -/
def inGrouping (g : List (String × List Event)) (e : Event) : Prop :=
  ∃ p ∈ g, e ∈ p.2

instance (g : List (String × List Event)) (e : Event) :
    Decidable (inGrouping g e) := by
  unfold inGrouping; infer_instance

/-! Section: Concrete inputs used by witnesses. -/

/-- A two-event input: one event the day before `nowW`, one on `nowW`'s
date at midnight. -/
def eventsW : List Event :=
  [⟨"past", some ⟨2024, 5, 9, 23, 0, some TIMEZONE⟩, none⟩,
   ⟨"today", some ⟨2024, 5, 10, 0, 0, some TIMEZONE⟩, none⟩]

/-- A concrete clock reading. -/
def nowW : DT := ⟨2024, 5, 10, 12, 0, some TIMEZONE⟩

/-- A one-entry calendar file whose entry has a naive begin and an
unparseable end. -/
def entryW : RawEntry := ⟨some "Mtg", some ⟨2024, 6, 1, 9, 0, none⟩, none⟩

/-- A filesystem exposing `entryW` under one path. -/
def fsW : String → Option (List RawEntry) :=
  fun p => if p = "cal.ics" then some [entryW] else none

/-! Section: helper lemmas -/

/-- Every event built by the match loop carries the early title `"X1"`
exactly when its start time-of-day is strictly before the cutoff. -/
theorem processOne_title_iff (year : Nat) (t : String × String × String)
    (ev : Event) (h : processOne year t = some ev) :
    ev.title = "X1" ↔
      ∃ b, ev.begin = some b ∧ timeLtB (b.hour, b.minute) cutoff = true := by
  unfold processOne at h
  cases hd : parseDateCap t.2.2 year with
  | none => simp [hd] at h
  | some dm =>
    obtain ⟨d, mo⟩ := dm
    cases ht1 : parseTimeCap t.1 with
    | none => simp [hd, ht1] at h
    | some p1 =>
      obtain ⟨h1, mi1⟩ := p1
      cases ht2 : parseTimeCap t.2.1 with
      | none => simp [hd, ht1, ht2] at h
      | some p2 =>
        obtain ⟨h2, mi2⟩ := p2
        simp only [hd, ht1, ht2, Option.some.injEq] at h
        subst h
        by_cases hc : timeLtB (h1, mi1) cutoff = true
        · simp [hc]
        · simp only [Bool.not_eq_true] at hc
          simp [hc]

/-- Extension of the previous lemma to the whole match list. -/
theorem processMatches_title_iff (year : Nat)
    (ms : List (String × String × String)) (ev : Event)
    (h : ev ∈ processMatches year ms) :
    ev.title = "X1" ↔
      ∃ b, ev.begin = some b ∧ timeLtB (b.hour, b.minute) cutoff = true := by
  simp only [processMatches, List.mem_filterMap] at h
  obtain ⟨t, _, ht⟩ := h
  exact processOne_title_iff year t ev ht

/-- When every begin is present, the filter succeeds and keeps exactly the
events whose begin date is ≥ `now`'s date. -/
theorem filter_future_events_ok (events : List Event) (now : DT)
    (hv : ∀ e ∈ events, e.begin.isSome) :
    ∃ l, filter_future_events events now = .ok l ∧
      ∀ e, e ∈ l ↔ e ∈ events ∧ ∃ b, e.begin = some b ∧ dateGeB b now = true := by
  induction events with
  | nil => exact ⟨[], rfl, by simp⟩
  | cons e rest ih =>
    obtain ⟨b, hb⟩ := Option.isSome_iff_exists.mp (hv e (by simp))
    obtain ⟨l, hl, hmem⟩ := ih (fun x hx => hv x (by simp [hx]))
    unfold filter_future_events
    rw [hb, hl]
    cases hge : dateGeB b now with
    | true =>
      refine ⟨e :: l, by simp [hge], ?_⟩
      intro x
      simp only [List.mem_cons, hmem x]
      constructor
      · rintro (rfl | ⟨hxr, hP⟩)
        · exact ⟨Or.inl rfl, b, hb, hge⟩
        · exact ⟨Or.inr hxr, hP⟩
      · rintro ⟨rfl | hxr, hP⟩
        · exact Or.inl rfl
        · exact Or.inr ⟨hxr, hP⟩
    | false =>
      refine ⟨l, by simp [hge], ?_⟩
      intro x
      rw [hmem x]
      constructor
      · rintro ⟨hxr, hP⟩
        exact ⟨List.mem_cons_of_mem e hxr, hP⟩
      · rintro ⟨hmx, b', hb', hge'⟩
        rcases List.mem_cons.mp hmx with rfl | hxr
        · rw [hb] at hb'
          cases hb'
          rw [hge] at hge'
          cases hge'
        · exact ⟨hxr, b', hb', hge'⟩

/-- `setdefault(...).append` reaches exactly the old members plus the new
event. -/
theorem inGrouping_addToGroup (m : List (String × List Event)) (k : String)
    (ev e : Event) :
    inGrouping (addToGroup m k ev) e ↔ inGrouping m e ∨ e = ev := by
  induction m with
  | nil => simp [addToGroup, inGrouping]
  | cons p rest ih =>
    obtain ⟨k', l⟩ := p
    unfold addToGroup
    by_cases hk : k' = k
    · rw [if_pos hk]
      simp only [inGrouping, List.mem_cons]
      constructor
      · rintro ⟨q, rfl | hq, hx⟩
        · rcases List.mem_append.mp hx with hx | hx
          · exact Or.inl ⟨(k', l), Or.inl rfl, hx⟩
          · simp at hx
            exact Or.inr hx
        · exact Or.inl ⟨q, Or.inr hq, hx⟩
      · rintro (⟨q, rfl | hq, hx⟩ | rfl)
        · exact ⟨(k', l ++ [ev]), Or.inl rfl, List.mem_append.mpr (Or.inl hx)⟩
        · exact ⟨q, Or.inr hq, hx⟩
        · exact ⟨(k', l ++ [e]), Or.inl rfl, List.mem_append.mpr (Or.inr (by simp))⟩
    · rw [if_neg hk]
      simp only [inGrouping, List.mem_cons] at ih ⊢
      constructor
      · rintro ⟨q, rfl | hq, hx⟩
        · exact Or.inl ⟨(k', l), Or.inl rfl, hx⟩
        · rcases ih.mp ⟨q, hq, hx⟩ with ⟨q', hq', hx'⟩ | rfl
          · exact Or.inl ⟨q', Or.inr hq', hx'⟩
          · exact Or.inr rfl
      · rintro (⟨q, rfl | hq, hx⟩ | rfl)
        · exact ⟨(k', l), Or.inl rfl, hx⟩
        · obtain ⟨q', hq', hx'⟩ := ih.mpr (Or.inl ⟨q, hq, hx⟩)
          exact ⟨q', Or.inr hq', hx'⟩
        · obtain ⟨q', hq', hx'⟩ := ih.mpr (Or.inr rfl)
          exact ⟨q', Or.inr hq', hx'⟩

/-- The grouping loop, run from any accumulator, reaches exactly the
accumulator's members plus the events of the list that carry a begin. -/
theorem inGrouping_foldl (l : List Event) (acc : List (String × List Event))
    (e : Event) :
    inGrouping
      (l.foldl
        (fun m x =>
          match x.begin with
          | none => m
          | some b => addToGroup m (isoDate b) x)
        acc) e ↔
      inGrouping acc e ∨ (e ∈ l ∧ e.begin.isSome) := by
  induction l generalizing acc with
  | nil => simp
  | cons x rest ih =>
    rw [List.foldl_cons, ih]
    cases hx : x.begin with
    | none =>
      simp only [List.mem_cons]
      constructor
      · rintro (h | h)
        · exact Or.inl h
        · exact Or.inr ⟨Or.inr h.1, h.2⟩
      · rintro (h | ⟨rfl | hr, hs⟩)
        · exact Or.inl h
        · rw [hx] at hs
          cases hs
        · exact Or.inr ⟨hr, hs⟩
    | some b =>
      rw [inGrouping_addToGroup]
      simp only [List.mem_cons]
      constructor
      · rintro ((h | rfl) | h)
        · exact Or.inl h
        · exact Or.inr ⟨Or.inl rfl, by simp [hx]⟩
        · exact Or.inr ⟨Or.inr h.1, h.2⟩
      · rintro (h | ⟨rfl | hr, hs⟩)
        · exact Or.inl (Or.inl h)
        · exact Or.inl (Or.inr rfl)
        · exact Or.inr ⟨hr, hs⟩

/-- Membership in the built grouping. -/
theorem inGrouping_buildGroups (l : List Event) (e : Event) :
    inGrouping (buildGroups l) e ↔ e ∈ l ∧ e.begin.isSome := by
  have h := inGrouping_foldl l [] e
  simp only [inGrouping, List.not_mem_nil] at h
  simpa [buildGroups, inGrouping] using h

/-- Equal dates are never strictly ordered. -/
theorem dateLtB_eq_false_of_eq (a b : DT) (h : dateEqB a b = true) :
    dateLtB a b = false := by
  simp only [dateEqB, decide_eq_true_eq] at h
  simp only [dateLtB, decide_eq_false_iff_not]
  omega

/-- Normalization always stamps the target zone. -/
theorem normalize_dt_tz (t : DT) (z : Zone) : (normalize_dt t z).tz = some z := by
  unfold normalize_dt
  cases t.tz with
  | none => rfl
  | some _ => rfl

/-- When every raw begin parsed, every sort key is zone-aware, so the
keys are mutually comparable. -/
theorem allKeysComparable_of_begins (entries : List RawEntry)
    (hb : ∀ r ∈ entries, r.beginDT.isSome) :
    allKeysComparable (entries.map (convert_entry TIMEZONE)) = true := by
  unfold allKeysComparable
  apply Bool.or_eq_true_iff.mpr
  left
  rw [List.all_eq_true]
  intro e he
  obtain ⟨r, hr, rfl⟩ := List.mem_map.mp he
  obtain ⟨t, ht⟩ := Option.isSome_iff_exists.mp (hb r hr)
  simp [sortKey, convert_entry, ht, normalize_dt_tz]

/-! Section: claims -/

/-- C1: On text containing exactly the occurrence `"17:00-20:15 21.10"`
with reference year 2024 and the 16:30 cutoff, extraction yields one
event titled with the late label `"X2"`, begin 2024-10-21T17:00 and end
2024-10-21T20:15 in the configured local zone; on `"08:00-09:00 5.3"` the
title is the early label `"X1"`; and in general every extracted event is
titled `"X1"` iff its start time-of-day is strictly before the cutoff. -/
theorem extraction_cutoff_classification :
    (import_events_from_text "17:00-20:15 21.10" 2024 =
      some [⟨"X2", some ⟨2024, 10, 21, 17, 0, some TIMEZONE⟩,
                   some ⟨2024, 10, 21, 20, 15, some TIMEZONE⟩⟩]) ∧
    (import_events_from_text "08:00-09:00 5.3" 2024 =
      some [⟨"X1", some ⟨2024, 3, 5, 8, 0, some TIMEZONE⟩,
                   some ⟨2024, 3, 5, 9, 0, some TIMEZONE⟩⟩]) ∧
    (∀ (text : String) (year : Nat) (ev : Event),
      ev ∈ (import_events_from_text text year).getD [] →
        (ev.title = "X1" ↔
          ∃ b, ev.begin = some b ∧ timeLtB (b.hour, b.minute) cutoff = true)) := by
  refine ⟨by decide, by decide, ?_⟩
  intro text year ev h
  unfold import_events_from_text at h
  cases hm : findAll text.data with
  | nil => simp [hm] at h
  | cons m ms =>
    rw [hm] at h
    simp only [Option.getD_some] at h
    exact processMatches_title_iff year (m :: ms) ev h

/-- C1 witness: the general cutoff rule applied to the concrete event
extracted from `"17:00-20:15 21.10"`. -/
theorem extraction_cutoff_classification_witness :
    (⟨"X2", some ⟨2024, 10, 21, 17, 0, some TIMEZONE⟩,
            some ⟨2024, 10, 21, 20, 15, some TIMEZONE⟩⟩ : Event).title = "X1" ↔
      ∃ b, (⟨"X2", some ⟨2024, 10, 21, 17, 0, some TIMEZONE⟩,
                   some ⟨2024, 10, 21, 20, 15, some TIMEZONE⟩⟩ : Event).begin = some b ∧
        timeLtB (b.hour, b.minute) cutoff = true :=
  extraction_cutoff_classification.2.2 "17:00-20:15 21.10" 2024 _ (by decide)

/-- C2: With every begin present, grouping succeeds and, at day
granularity, excludes every event whose begin date is strictly before
`now`'s date and includes every event whose begin date equals `now`'s
date, whatever its time-of-day. -/
theorem grouping_day_granularity (events : List Event) (now : DT)
    (hv : ∀ e ∈ events, e.begin.isSome) :
    ∃ g, group_events_by_date events now = .ok g ∧
      ∀ e ∈ events, ∀ b, e.begin = some b →
        ((dateLtB b now = true → ¬ inGrouping g e) ∧
         (dateEqB b now = true → inGrouping g e)) := by
  obtain ⟨l, hl, hmem⟩ := filter_future_events_ok events now hv
  refine ⟨buildGroups l, ?_, ?_⟩
  · unfold group_events_by_date
    rw [hl]
  · intro e he b hb
    constructor
    · intro hlt hin
      rw [inGrouping_buildGroups] at hin
      obtain ⟨_, b', hb', hge⟩ := (hmem e).mp hin.1
      rw [hb] at hb'
      cases hb'
      simp [dateGeB, hlt] at hge
    · intro heq
      rw [inGrouping_buildGroups]
      have hge : dateGeB b now = true := by
        simp [dateGeB, dateLtB_eq_false_of_eq b now heq]
      exact ⟨(hmem e).mpr ⟨he, b, hb, hge⟩, by simp [hb]⟩

/-- C2 witness: grouping `eventsW` at clock `nowW` drops the event of the
previous day and keeps the midnight event of the current day. -/
theorem grouping_day_granularity_witness :
    (∀ e ∈ eventsW, e.begin.isSome) ∧
    ∃ g, group_events_by_date eventsW nowW = .ok g ∧
      ∀ e ∈ eventsW, ∀ b, e.begin = some b →
        ((dateLtB b nowW = true → ¬ inGrouping g e) ∧
         (dateEqB b nowW = true → inGrouping g e)) :=
  ⟨by decide, grouping_day_granularity eventsW nowW (by decide)⟩

/-- C3 counterexample: on text with zero pattern occurrences the
extractor returns the absent value `None`, not an empty event list. -/
theorem extraction_no_match_counterexample :
    import_events_from_text "hello world" 2024 = none ∧
    import_events_from_text "hello world" 2024 ≠ some [] := by
  exact ⟨by decide, by decide⟩

/-- C3 (amended): the extractor returns the absent value `None` exactly
when the pattern has no occurrence in the text; with at least one
occurrence a (possibly empty) event list is returned. -/
theorem extraction_no_match_returns_none (text : String) (year : Nat) :
    import_events_from_text text year = none ↔ findAll text.data = [] := by
  unfold import_events_from_text
  cases hm : findAll text.data with
  | nil => simp
  | cons m ms => simp

/-- C3 witness: the amended claim evaluated on matchless text. -/
theorem extraction_no_match_returns_none_witness :
    import_events_from_text "hello world" 2024 = none ↔
      findAll "hello world".data = [] :=
  extraction_no_match_returns_none "hello world" 2024

/-- C4: Grouping is a pure function of the event sequence and the clock
reading: structurally identical inputs give structurally identical
groupings. -/
theorem grouping_deterministic (evs₁ evs₂ : List Event) (now₁ now₂ : DT)
    (h1 : evs₁ = evs₂) (h2 : now₁ = now₂) :
    group_events_by_date evs₁ now₁ = group_events_by_date evs₂ now₂ := by
  rw [h1, h2]

/-- C4 witness: two calls on identical concrete inputs agree. -/
theorem grouping_deterministic_witness :
    eventsW = eventsW ∧ nowW = nowW ∧
    group_events_by_date eventsW nowW = group_events_by_date eventsW nowW :=
  ⟨rfl, rfl, grouping_deterministic eventsW eventsW nowW nowW rfl rfl⟩

/-- C5: the code evaluated at the failing input: an event whose begin is
`None` makes `group_events_by_date` raise `AttributeError` inside
`filter_future_events` (the comprehension calls `.date()` on `None`
before the loop's `isinstance` guard can drop the event), instead of
dropping it silently. -/
theorem grouping_missing_begin_raises :
    group_events_by_date [⟨"T", none, none⟩] ⟨2024, 1, 1, 12, 0, some TIMEZONE⟩ =
      .error "AttributeError: NoneType object has no attribute date" := by
  decide

/-- C6: A record whose end fails to parse does not fail the load: when
every begin parses, the load succeeds and that record's event is in the
output with `end` absent and its begin intact (present, and exactly the
normalized raw begin). -/
theorem load_unparseable_end_downgraded (fs : String → Option (List RawEntry))
    (path : String) (entries : List RawEntry) (r : RawEntry)
    (hfs : fs path = some entries)
    (hb : ∀ x ∈ entries, x.beginDT.isSome)
    (hr : r ∈ entries) (he : r.endDT = none) :
    ∃ evs, load_ics_file fs path = .ok evs ∧
      convert_entry TIMEZONE r ∈ evs ∧
      (convert_entry TIMEZONE r).«end» = none ∧
      (convert_entry TIMEZONE r).begin =
        r.beginDT.map (fun t => normalize_dt t TIMEZONE) ∧
      (convert_entry TIMEZONE r).begin.isSome := by
  refine ⟨(entries.map (convert_entry TIMEZONE)).mergeSort
      (fun a b => dtLeB (sortKey a) (sortKey b)), ?_, ?_, ?_, rfl, ?_⟩
  · unfold load_ics_file
    rw [hfs]
    show sort_events (entries.map (convert_entry TIMEZONE)) = _
    unfold sort_events
    rw [allKeysComparable_of_begins entries hb]
    rfl
  · exact List.mem_mergeSort.mpr (List.mem_map_of_mem _ hr)
  · simp [convert_entry, he]
  · obtain ⟨t, ht⟩ := Option.isSome_iff_exists.mp (hb r hr)
    simp [convert_entry, ht]

/-- C6 witness: loading the one-entry file `fsW`, whose entry has an
unparseable end, succeeds and keeps the entry with `end` absent. -/
theorem load_unparseable_end_downgraded_witness :
    fsW "cal.ics" = some [entryW] ∧ entryW.endDT = none ∧
    ∃ evs, load_ics_file fsW "cal.ics" = .ok evs ∧
      convert_entry TIMEZONE entryW ∈ evs ∧
      (convert_entry TIMEZONE entryW).«end» = none ∧
      (convert_entry TIMEZONE entryW).begin =
        entryW.beginDT.map (fun t => normalize_dt t TIMEZONE) ∧
      (convert_entry TIMEZONE entryW).begin.isSome :=
  ⟨by decide, rfl,
   load_unparseable_end_downgraded fsW "cal.ics" [entryW] entryW
     (by decide) (by decide) (by decide) rfl⟩

/-- C7: Loading a path that does not exist raises the not-found error and
never returns an (empty or partial) event list. -/
theorem load_missing_path_raises (fs : String → Option (List RawEntry))
    (path : String) (h : fs path = none) :
    load_ics_file fs path = .error (.notFound path) := by
  unfold load_ics_file
  rw [h]

/-- C7 witness: the empty filesystem at a concrete path. -/
theorem load_missing_path_raises_witness :
    (fun _ : String => (none : Option (List RawEntry))) "absent.ics" = none ∧
    load_ics_file (fun _ => none) "absent.ics" = .error (.notFound "absent.ics") :=
  ⟨rfl, load_missing_path_raises (fun _ => none) "absent.ics" rfl⟩

/-- C8: Normalizing a naive timestamp attaches the zone and leaves every
wall-clock field unchanged (no arithmetic shift). -/
theorem normalize_naive_attaches_zone (t : DT) (z : Zone) (h : t.tz = none) :
    (normalize_dt t z).year = t.year ∧ (normalize_dt t z).month = t.month ∧
    (normalize_dt t z).day = t.day ∧ (normalize_dt t z).hour = t.hour ∧
    (normalize_dt t z).minute = t.minute ∧ (normalize_dt t z).tz = some z := by
  unfold normalize_dt
  rw [h]
  exact ⟨rfl, rfl, rfl, rfl, rfl, rfl⟩

/-- C8 witness: a concrete naive timestamp normalized to the local zone. -/
theorem normalize_naive_attaches_zone_witness :
    (⟨2024, 7, 1, 9, 30, none⟩ : DT).tz = none ∧
    ((normalize_dt ⟨2024, 7, 1, 9, 30, none⟩ TIMEZONE).year =
        (⟨2024, 7, 1, 9, 30, none⟩ : DT).year ∧
     (normalize_dt ⟨2024, 7, 1, 9, 30, none⟩ TIMEZONE).month =
        (⟨2024, 7, 1, 9, 30, none⟩ : DT).month ∧
     (normalize_dt ⟨2024, 7, 1, 9, 30, none⟩ TIMEZONE).day =
        (⟨2024, 7, 1, 9, 30, none⟩ : DT).day ∧
     (normalize_dt ⟨2024, 7, 1, 9, 30, none⟩ TIMEZONE).hour =
        (⟨2024, 7, 1, 9, 30, none⟩ : DT).hour ∧
     (normalize_dt ⟨2024, 7, 1, 9, 30, none⟩ TIMEZONE).minute =
        (⟨2024, 7, 1, 9, 30, none⟩ : DT).minute ∧
     (normalize_dt ⟨2024, 7, 1, 9, 30, none⟩ TIMEZONE).tz = some TIMEZONE) :=
  ⟨rfl, normalize_naive_attaches_zone ⟨2024, 7, 1, 9, 30, none⟩ TIMEZONE rfl⟩

/-- C9: the code evaluated at the failing input: a loadable file mixing
an entry with no begin (naive `datetime.min` sentinel key) and an entry
with a zone-aware begin makes the final sort raise `TypeError`; the
sentinel does not make such entries sort first. -/
theorem load_mixed_sort_keys_raise :
    load_ics_file
      (fun p => if p = "mixed.ics" then
        some [⟨some "A", some ⟨2024, 1, 1, 10, 0, none⟩, none⟩,
              ⟨some "B", none, none⟩] else none)
      "mixed.ics" =
    .error (.typeError "cannot compare offset-naive and offset-aware datetimes") := by
  decide

/-- C10: On `"20:00-19:00 5.3"` the extractor produces an event whose end
is strictly earlier than its begin: both clock times are parsed against
the same calendar date and `end ≥ begin` is never validated. -/
theorem extraction_negative_duration :
    import_events_from_text "20:00-19:00 5.3" 2024 =
      some [⟨"X2", some ⟨2024, 3, 5, 20, 0, some TIMEZONE⟩,
                   some ⟨2024, 3, 5, 19, 0, some TIMEZONE⟩⟩] ∧
    wallLtB ⟨2024, 3, 5, 19, 0, some TIMEZONE⟩
      ⟨2024, 3, 5, 20, 0, some TIMEZONE⟩ = true := by
  exact ⟨by decide, by decide⟩

end LoadCalendar
